import Mathlib

set_option autoImplicit false

/-!
# mrbuild: the application context (`internal/models/app.go`)

A shallow embedding of `App.ConfigureLogging`, `App.HandleError`,
`App.HandleErrorWithFields` and `App.ConfigureWorkers`, together with the part of the
logrus logger these methods drive, and the properties of the logging and error
reporting policy proved over it.

The process is modelled by explicit state passing: a `State` holds the `App` value,
the lines that have been written to the log outputs so far, and whether the process
is still running.
-/

namespace Mrbuild

/-! ## Go values -/

/-- Go `error` values that reach the logger. `notValidLevel lvl` is the error that
`logrus.ParseLevel` returns for the string `lvl`
(`fmt.Errorf("not a valid logrus Level: %q", lvl)`); `errorString text` is any other
error, with the text its `Error` method returns. A nil error is `none : Option GoError`. -/
inductive GoError where
  | notValidLevel (lvl : String)
  | errorString (text : String)
  deriving DecidableEq, Repr

/-- The error of a failed `os.OpenFile` (`*os.PathError`). -/
structure PathError where
  Op : String
  Path : String
  Err : String
  deriving DecidableEq, Repr

/-- Go: `func (e *PathError) Error() string { return e.Op + " " + e.Path + ": " + e.Err.Error() }`. -/
def PathError.Error (e : PathError) : String :=
  e.Op ++ " " ++ e.Path ++ ": " ++ e.Err

/-- Values of a log field (`interface{}`): strings, integers and errors, which is what
this file stores (`count`, `error`) and what callers pass as context. -/
inductive Value where
  | str (s : String)
  | int (n : Int)
  | err (e : GoError)
  deriving DecidableEq, Repr

/-- A `map[string]interface{}` (also `logrus.Fields`), as an association list read by
its first binding of a key. The nil map is `none : Option Fields`. -/
abbrev Fields := List (String × Value)

/-- Go: `fields[k]`. -/
def Fields.index (m : Fields) (k : String) : Option Value :=
  match m with
  | [] => none
  | (k', v) :: rest => if k' = k then some v else Fields.index rest k

/-- The mapping without its bindings of `k`. -/
def Fields.erase (m : Fields) (k : String) : Fields :=
  match m with
  | [] => []
  | (k', v) :: rest => if k' = k then Fields.erase rest k else (k', v) :: Fields.erase rest k

/-- Go: `fields[k] = v`: `k` is bound to `v`, every other key is bound as before. -/
def Fields.assign (m : Fields) (k : String) (v : Value) : Fields :=
  (k, v) :: Fields.erase m k

/-! ## The logrus logger (`github.com/sirupsen/logrus`) -/

namespace logrus

/-- The type `logrus.Level`, constructors in the order of the library's constants
(`PanicLevel` = 0 up to `TraceLevel` = 6). -/
inductive Level where
  | PanicLevel
  | FatalLevel
  | ErrorLevel
  | WarnLevel
  | InfoLevel
  | DebugLevel
  | TraceLevel
  deriving DecidableEq, Repr

/-- The numeric value of a level (`type Level uint32`, declared with `iota`). -/
def Level.val : Level → Nat
  | .PanicLevel => 0
  | .FatalLevel => 1
  | .ErrorLevel => 2
  | .WarnLevel => 3
  | .InfoLevel => 4
  | .DebugLevel => 5
  | .TraceLevel => 6

/-- Where a logger writes (`Logger.Out`): the standard streams, the writer returned
by `colorable.NewColorableStdout()`, or a file opened by name. -/
inductive Output where
  | Stderr
  | Stdout
  | ColorableStdout
  | File (name : String)
  deriving DecidableEq, Repr

/-- The console outputs: everything but a file. -/
def Output.isConsole : Output → Bool
  | .File _ => false
  | _ => true

/-- The two formatters the package installs, with the fields it sets. -/
inductive Formatter where
  | TextFormatter (ForceColors : Bool) (FullTimestamp : Bool) (TimestampFormat : String)
  | JSONFormatter (TimestampFormat : String)
  deriving DecidableEq, Repr

/-- The type `logrus.Logger`: the fields the package reads or writes. Hooks and
`ExitFunc` stay as `logrus.New` makes them (no hooks, `os.Exit`). -/
structure Logger where
  Out : Output
  Formatter : Formatter
  ReportCaller : Bool
  Level : logrus.Level
  deriving DecidableEq, Repr

/-- Go: `logrus.New()`:
`&Logger{Out: os.Stderr, Formatter: new(TextFormatter), Level: InfoLevel, ReportCaller: false, ...}`. -/
def New : Logger :=
  { Out := .Stderr, Formatter := .TextFormatter false false "", ReportCaller := false,
    Level := .InfoLevel }

/-- Go: `func (logger *Logger) IsLevelEnabled(level Level) bool { return logger.level() >= level }`. -/
def Logger.IsLevelEnabled (logger : Logger) (level : logrus.Level) : Bool :=
  decide (level.val ≤ logger.Level.val)

/-- One line written to a log output: where it went, how it was formatted, and the
entry it carries (level, message, fields). -/
structure Line where
  Out : Output
  Formatter : Formatter
  ReportCaller : Bool
  Level : logrus.Level
  Message : String
  Data : Fields
  deriving DecidableEq, Repr

/-- Go: `Entry.Log` on the entry `logger.WithFields(data)`:
`if entry.Logger.IsLevelEnabled(level) { entry.log(level, msg) }`. The result is the
list of lines the call writes to `logger.Out`: one line, or none below the level. -/
def Logger.Log (logger : Logger) (level : logrus.Level) (data : Fields) (msg : String) :
    List Line :=
  if logger.IsLevelEnabled level then
    [{ Out := logger.Out, Formatter := logger.Formatter, ReportCaller := logger.ReportCaller,
       Level := level, Message := msg, Data := data }]
  else []

/-- Go: `unicode.ToLower` as far as a comparison with a lower-case ASCII word can
see it: the ASCII capitals, and the two other runes whose lower case is an ASCII
letter (U+0130 to `i`, U+212A to `k`); no other rune has an ASCII lower case. -/
def toLowerRune (c : Char) : Char :=
  if c.toNat = 0x130 then 'i'
  else if c.toNat = 0x212A then 'k'
  else c.toLower

/-- Go: `strings.ToLower`, rune by rune (see `toLowerRune`). -/
def ToLower (s : String) : String :=
  String.mk (s.data.map toLowerRune)

/-- Go: `logrus.ParseLevel`: a switch on `strings.ToLower(lvl)`; any other string is
the error `not a valid logrus Level`. -/
def ParseLevel (lvl : String) : Except GoError Level :=
  let l := ToLower lvl
  if l = "panic" then .ok .PanicLevel
  else if l = "fatal" then .ok .FatalLevel
  else if l = "error" then .ok .ErrorLevel
  else if l = "warn" ∨ l = "warning" then .ok .WarnLevel
  else if l = "info" then .ok .InfoLevel
  else if l = "debug" then .ok .DebugLevel
  else if l = "trace" then .ok .TraceLevel
  else .error (.notValidLevel lvl)

end logrus

/-! ## The process state -/

/-- Whether the process is running, has exited with a status code (`os.Exit`), or
has died of a run-time panic (nil pointer dereference, index out of range). -/
inductive Status where
  | running
  | exited (code : Int)
  | panicked
  deriving DecidableEq, Repr

/-- Go: `type App struct { Logger *log.Logger; Workers *workerpool.WorkerPool }`.
A nil pointer is `none`; of the worker pool only its capacity is kept. -/
structure App where
  Logger : Option logrus.Logger
  Workers : Option Int
  deriving DecidableEq, Repr

/-- The state of the process: the application context, every line written to a log
output so far (oldest first), and the process status. -/
structure State where
  app : App
  written : List logrus.Line
  status : Status
  deriving DecidableEq, Repr

/-- Modelled from the spec: the Log Configuration (`config.Log` of `internal/config`,
whose declaration is not in this file), with the four fields the spec lists and
`ConfigureLogging` reads: `level` and `format` strings, `colour` a boolean, `file` an
optional path (empty when unset). -/
structure Log where
  Level : String
  Format : String
  Colour : Bool
  File : String
  deriving DecidableEq, Repr

/-- What the methods take from outside the file, as parameters: the two constants of
`internal/constants` they use (`constants.DefaultErrorMessage`,
`constants.LoggingTimestamp`, declared elsewhere in the repository), and the file
system as `os.OpenFile` sees it (for a path, either success or the error returned). -/
structure Env where
  DefaultErrorMessage : String
  LoggingTimestamp : String
  OpenFile : String → Except PathError Unit

/-- A method call on `app.Logger` that changes the logger: a nil pointer panics. -/
def State.setLogger (f : logrus.Logger → logrus.Logger) (s : State) : State :=
  match s.app.Logger with
  | none => { s with status := .panicked }
  | some lg => { s with app := { s.app with Logger := some (f lg) } }

/-- Go: `app.Logger.WithFields(data).Log(level, msg)` for `level` one of warn, error,
debug (the methods `Warn`, `Warnf`, `Error`, `Debug`): the lines `Logger.Log` yields
are appended to what has been written; a nil logger panics. -/
def State.log (level : logrus.Level) (data : Fields) (msg : String) (s : State) : State :=
  match s.app.Logger with
  | none => { s with status := .panicked }
  | some lg => { s with written := s.written ++ lg.Log level data msg }

/-- Go: `app.Logger.WithFields(data).Fatal(msg)`:
`entry.Log(FatalLevel, msg); entry.Logger.Exit(1)`. -/
def State.fatal (data : Fields) (msg : String) (s : State) : State :=
  match s.app.Logger with
  | none => { s with status := .panicked }
  | some lg =>
    { s with written := s.written ++ lg.Log .FatalLevel data msg, status := .exited 1 }

/-! ## `internal/models/app.go` -/

/-- Go: `func (app *App) HandleErrorWithFields(err error, errorType string, msg string,
fields map[string]interface{})`. Returns the state after the call and the mapping the
caller supplied as the caller sees it afterwards (a map is shared with the callee; a
nil map stays nil, the callee allocating its own). -/
def HandleErrorWithFields (env : Env) (err : Option GoError) (errorType : String)
    (msg : String) (fields : Option Fields) (s : State) : State × Option Fields :=
  match err with
  | none => (s, fields)
  | some e =>
    let fs : Fields := match fields with
      | none => []
      | some m => m
    let message := if msg ≠ "" then msg else env.DefaultErrorMessage
    let fs := if errorType = "error" ∨ errorType = "fatal" then
        Fields.assign fs "error" (.err e)
      else fs
    let s1 :=
      if errorType = "error" then s.log .ErrorLevel fs message
      else if errorType = "fatal" then s.fatal fs message
      else if errorType = "warn" then s.log .WarnLevel fs message
      else s
    (s1, fields.map (fun _ => fs))

/-- Go: `func (app *App) HandleError(err error, errorType string, msg ...string)`. -/
def HandleError (env : Env) (err : Option GoError) (errorType : String)
    (msg : List String) (s : State) : State :=
  let msg := if msg.length = 0 then msg ++ [env.DefaultErrorMessage] else msg
  match msg with
  | [] => { s with status := .panicked }
  | m0 :: _ => (HandleErrorWithFields env err errorType m0 none s).1

/-- Lines 38 to 71 of `ConfigureLogging`: with the level `ll` settled, set caller
reporting, level, formatter and output, then the log file. -/
def configureLogger (env : Env) (logging : Log) (ll : logrus.Level) (s : State) : State :=
  let s := if ll = .TraceLevel then s.setLogger (fun lg => { lg with ReportCaller := true }) else s
  let s := s.setLogger (fun lg => { lg with Level := ll })
  let s :=
    if logging.Format = "json" then
      s.setLogger (fun lg => { lg with Formatter := .JSONFormatter env.LoggingTimestamp })
    else
      (s.setLogger (fun lg =>
        { lg with Formatter := .TextFormatter logging.Colour false env.LoggingTimestamp })).setLogger
        (fun lg => { lg with Out := .ColorableStdout })
  if logging.File ≠ "" then
    match env.OpenFile logging.File with
    | .ok _ => s.setLogger (fun lg => { lg with Out := .File logging.File })
    | .error e =>
      s.log .WarnLevel [] ("Failed to log to file, defaulting to screen: " ++ e.Error)
  else s

/-- Go: `func (app *App) ConfigureLogging(logging config.Log)`. The statements after
the call of `HandleError` run only if that call returns. -/
def ConfigureLogging (env : Env) (logging : Log) (s : State) : State :=
  let s0 : State :=
    { s with app := { s.app with Logger := some { logrus.New with Out := .Stdout } } }
  match logrus.ParseLevel logging.Level with
  | .ok ll => configureLogger env logging ll s0
  | .error err =>
    let s1 := HandleError env (some err) "fatal" ["Unable to set logging level"] s0
    if s1.status = .running then configureLogger env logging .DebugLevel s1 else s1

/-- Go: `workerpool.New(maxWorkers)`: the capacity of the pool,
`if maxWorkers < 1 { maxWorkers = 1 }`. -/
def workerpoolNew (maxWorkers : Int) : Int :=
  if maxWorkers < 1 then 1 else maxWorkers

/-- Go: `func (app *App) ConfigureWorkers(count int)`. -/
def ConfigureWorkers (count : Int) (s : State) : State :=
  let s1 := s.log .DebugLevel [("count", .int count)] "Configuring workers in pool"
  if s1.status = .running then
    { s1 with app := { s1.app with Workers := some (workerpoolNew count) } }
  else s1

/-! ## Observations used in the statements -/

/-- The lines written between two states of one run. -/
def emitted (before after : State) : List logrus.Line :=
  after.written.drop before.written.length

/-- The lines of a state that went to the console. -/
def consoleLines (s : State) : List logrus.Line :=
  s.written.filter (fun l => l.Out.isConsole)

/-- An environment for the examples, the two constants at sample values: no file can
be opened. -/
def envNoFiles : Env :=
  { DefaultErrorMessage := "An error has occurred", LoggingTimestamp := "2006-01-02 15:04:05",
    OpenFile := fun p => .error { Op := "open", Path := p, Err := "permission denied" } }

/-- An environment for the examples, the two constants at sample values: every file
can be opened. -/
def envAllFiles : Env :=
  { DefaultErrorMessage := "An error has occurred", LoggingTimestamp := "2006-01-02 15:04:05",
    OpenFile := fun _ => .ok () }

/-- A process at start-up: nothing configured, nothing written. -/
def start : State :=
  { app := { Logger := none, Workers := none }, written := [], status := .running }

/-- The severity a recognised tag stands for, in the words of the specification:
`"warn"` the warn level, `"error"` the error level, `"fatal"` the fatal level. -/
def severityOf (tag : String) : Option logrus.Level :=
  if tag = "warn" then some .WarnLevel
  else if tag = "error" then some .ErrorLevel
  else if tag = "fatal" then some .FatalLevel
  else none

/-- A later call of one of the methods of `App` that use the configured logger, by
its arguments. -/
inductive Call where
  | reportWithFields (err : Option GoError) (errorType : String) (msg : String)
      (fields : Option Fields)
  | report (err : Option GoError) (errorType : String) (msg : List String)
  | workers (count : Int)
  deriving DecidableEq, Repr

/-- The state after one call. -/
def Call.run (env : Env) (c : Call) (s : State) : State :=
  match c with
  | .reportWithFields err errorType msg fields =>
    (HandleErrorWithFields env err errorType msg fields s).1
  | .report err errorType msg => HandleError env err errorType msg s
  | .workers count => ConfigureWorkers count s

/-- A run of later calls, one after the other for as long as the process is running. -/
def runAll (env : Env) : List Call → State → State
  | [], s => s
  | c :: rest, s =>
    let s1 := c.run env s
    if s1.status = .running then runAll env rest s1 else s1

/-! ## Lemmas -/

/-- The lines written between a state and one that extends its lines by `ls` are `ls`. -/
theorem emitted_append (s t : State) (ls : List logrus.Line)
    (h : t.written = s.written ++ ls) : emitted s t = ls := by
  simp [emitted, h]

/-- Nothing is written between a state and itself. -/
theorem emitted_self (s : State) : emitted s s = [] := by
  simp [emitted]

/-- What `configureLogger` leaves in the logger: the level is `ll`, and caller
reporting is on exactly if it was on before or `ll` is the trace level; the process
status is untouched. -/
theorem configureLogger_logger (env : Env) (logging : Log) (ll : logrus.Level) (s : State)
    (lg : logrus.Logger) (h : s.app.Logger = some lg) :
    ∃ lg2, (configureLogger env logging ll s).app.Logger = some lg2 ∧ lg2.Level = ll ∧
      lg2.ReportCaller = (if ll = .TraceLevel then true else lg.ReportCaller) ∧
      (configureLogger env logging ll s).status = s.status := by
  unfold configureLogger
  by_cases ht : ll = .TraceLevel <;> by_cases hf : logging.Format = "json" <;>
    by_cases hp : logging.File = "" <;> cases ho : env.OpenFile logging.File <;>
    simp [State.setLogger, State.log, h, ht, hf, hp, ho]

/-- The tags that `severityOf` recognises. -/
theorem severityOf_eq_some (tag : String) (lvl : logrus.Level)
    (h : severityOf tag = some lvl) :
    (tag = "warn" ∧ lvl = .WarnLevel) ∨ (tag = "error" ∧ lvl = .ErrorLevel) ∨
      (tag = "fatal" ∧ lvl = .FatalLevel) := by
  unfold severityOf at h
  split_ifs at h with h1 h2 h3 <;> simp_all

/-- The state after `HandleErrorWithFields` with a non-nil cause and a recognised tag,
on a state whose logger is set: the lines `Logger.Log` yields at the level of the tag
are appended, and the process has exited if the tag is `"fatal"`. -/
theorem HandleErrorWithFields_recognised (env : Env) (e : GoError) (tag : String)
    (lvl : logrus.Level) (msg : String) (fields : Option Fields) (s : State)
    (lg : logrus.Logger) (hlg : s.app.Logger = some lg) (hsev : severityOf tag = some lvl) :
    (HandleErrorWithFields env (some e) tag msg fields s).1 =
      { s with
        written := s.written ++ lg.Log lvl
          (if tag = "warn" then fields.getD [] else Fields.assign (fields.getD []) "error" (.err e))
          (if msg = "" then env.DefaultErrorMessage else msg)
        status := if tag = "fatal" then .exited 1 else s.status } := by
  rcases severityOf_eq_some tag lvl hsev with ⟨rfl, rfl⟩ | ⟨rfl, rfl⟩ | ⟨rfl, rfl⟩ <;>
    cases fields <;> by_cases hm : msg = "" <;>
    simp [HandleErrorWithFields, State.log, State.fatal, hlg, hm]

/-- The state after `HandleErrorWithFields` with a non-nil cause and a tag that is none
of the three recognised ones: nothing has changed. -/
theorem HandleErrorWithFields_unrecognised (env : Env) (e : GoError) (tag msg : String)
    (fields : Option Fields) (s : State)
    (hw : tag ≠ "warn") (he : tag ≠ "error") (hf : tag ≠ "fatal") :
    HandleErrorWithFields env (some e) tag msg fields s = (s, fields) := by
  cases fields <;> simp [HandleErrorWithFields, hw, he, hf]

/-- On a state without a logger `HandleErrorWithFields` writes nothing. -/
theorem HandleErrorWithFields_nil_logger (env : Env) (err : Option GoError) (tag msg : String)
    (fields : Option Fields) (s : State) (hlg : s.app.Logger = none) :
    (HandleErrorWithFields env err tag msg fields s).1.written = s.written := by
  cases err with
  | none => simp [HandleErrorWithFields]
  | some e =>
    by_cases h1 : tag = "error" <;> by_cases h2 : tag = "fatal" <;> by_cases h3 : tag = "warn" <;>
      simp [HandleErrorWithFields, State.log, State.fatal, hlg, h1, h2, h3]

/-- The call `HandleError` is `HandleErrorWithFields` with the first message, or the
default message when there is none, and a nil mapping. -/
theorem HandleError_eq (env : Env) (err : Option GoError) (tag : String) (msgs : List String)
    (s : State) :
    HandleError env err tag msgs s =
      (HandleErrorWithFields env err tag (msgs.headD env.DefaultErrorMessage) none s).1 := by
  cases msgs <;> simp [HandleError]

/-- After `fields[k] = v` the key `k` is bound to `v`. -/
theorem Fields.index_assign_same (m : Fields) (k : String) (v : Value) :
    Fields.index (Fields.assign m k v) k = some v := by
  simp [Fields.assign, Fields.index]

/-- Erasing `k` leaves every other key bound as before. -/
theorem Fields.index_erase_ne (m : Fields) (k k2 : String) (h : k2 ≠ k) :
    Fields.index (Fields.erase m k) k2 = Fields.index m k2 := by
  induction m with
  | nil => rfl
  | cons p rest ih =>
    obtain ⟨a, b⟩ := p
    by_cases hk : a = k
    · subst hk
      have hne : ¬ a = k2 := fun h2 => h h2.symm
      simp [Fields.erase, Fields.index, hne, ih]
    · by_cases hk2 : a = k2
      · subst hk2
        simp [Fields.erase, Fields.index, hk]
      · simp [Fields.erase, Fields.index, hk, hk2, ih]

/-- After `fields[k] = v` every other key is bound as before. -/
theorem Fields.index_assign_other (m : Fields) (k k2 : String) (v : Value) (h : k2 ≠ k) :
    Fields.index (Fields.assign m k v) k2 = Fields.index m k2 := by
  have hne : ¬ k = k2 := fun h2 => h h2.symm
  simp [Fields.assign, Fields.index, hne, Fields.index_erase_ne m k k2 h]

/-- Every line `HandleErrorWithFields` writes for a non-nil cause and a recognised tag
carries the supplied message, or the default message when the supplied one is empty. -/
theorem HandleErrorWithFields_message (env : Env) (e : GoError) (tag : String)
    (lvl : logrus.Level) (msg : String) (fields : Option Fields) (s : State)
    (hsev : severityOf tag = some lvl) :
    ∀ line ∈ emitted s (HandleErrorWithFields env (some e) tag msg fields s).1,
      line.Message = (if msg = "" then env.DefaultErrorMessage else msg) := by
  cases hlg : s.app.Logger with
  | none =>
    have hw := HandleErrorWithFields_nil_logger env (some e) tag msg fields s hlg
    rw [emitted_append s _ [] (by simpa using hw)]
    simp
  | some lg =>
    rw [HandleErrorWithFields_recognised env e tag lvl msg fields s lg hlg hsev]
    rw [emitted_append s _ _ rfl]
    intro line hline
    by_cases hen : lg.IsLevelEnabled lvl
    · simp only [logrus.Logger.Log, hen, if_true, List.mem_singleton] at hline
      rw [hline]
    · simp [logrus.Logger.Log, hen] at hline

/-- On a logger whose level admits the severity of the tag, `HandleErrorWithFields`
with a non-nil cause writes exactly one line. -/
theorem HandleErrorWithFields_one_line (env : Env) (e : GoError) (tag : String)
    (lvl : logrus.Level) (msg : String) (fields : Option Fields) (s : State)
    (lg : logrus.Logger) (hlg : s.app.Logger = some lg) (hsev : severityOf tag = some lvl)
    (hen : lg.IsLevelEnabled lvl = true) :
    (emitted s (HandleErrorWithFields env (some e) tag msg fields s).1).length = 1 := by
  rw [HandleErrorWithFields_recognised env e tag lvl msg fields s lg hlg hsev]
  rw [emitted_append s _ _ rfl]
  simp [logrus.Logger.Log, hen]

/-- With a log file that opens, `configureLogger` writes nothing and leaves the file as
the logger's output. -/
theorem configureLogger_file_ok (env : Env) (logging : Log) (ll : logrus.Level) (s : State)
    (lg : logrus.Logger) (h : s.app.Logger = some lg) (hf : logging.File ≠ "") (u : Unit)
    (ho : env.OpenFile logging.File = .ok u) :
    (configureLogger env logging ll s).written = s.written ∧
    ∃ lg2, (configureLogger env logging ll s).app.Logger = some lg2 ∧
      lg2.Out = .File logging.File := by
  unfold configureLogger
  by_cases ht : ll = .TraceLevel <;> by_cases hj : logging.Format = "json" <;>
    simp [State.setLogger, h, ht, hj, hf, ho]

/-- With a log file that does not open, `configureLogger` leaves a console as the
logger's output (given it was one before) and writes what the configured logger
yields for the warning. -/
theorem configureLogger_file_error (env : Env) (logging : Log) (ll : logrus.Level) (s : State)
    (lg : logrus.Logger) (h : s.app.Logger = some lg) (hc : lg.Out.isConsole = true)
    (hf : logging.File ≠ "") (perr : PathError) (ho : env.OpenFile logging.File = .error perr) :
    ∃ lg2, (configureLogger env logging ll s).app.Logger = some lg2 ∧
      lg2.Out.isConsole = true ∧ lg2.Level = ll ∧
      (configureLogger env logging ll s).written = s.written ++ lg2.Log .WarnLevel []
        ("Failed to log to file, defaulting to screen: " ++ perr.Error) := by
  have hcs : logrus.Output.ColorableStdout.isConsole = true := rfl
  unfold configureLogger
  by_cases ht : ll = .TraceLevel <;> by_cases hj : logging.Format = "json" <;>
    simp [State.setLogger, State.log, h, ht, hj, hf, ho, hc, hcs]

/-- A tag that `severityOf` does not recognise is none of the three. -/
theorem severityOf_eq_none (tag : String) (h : severityOf tag = none) :
    tag ≠ "warn" ∧ tag ≠ "error" ∧ tag ≠ "fatal" := by
  unfold severityOf at h
  split_ifs at h with h1 h2 h3
  exact ⟨h1, h2, h3⟩

/-- Whatever its arguments, `HandleErrorWithFields` only appends lines, all of them on
the output of the logger, and leaves the application context as it was. -/
theorem HandleErrorWithFields_out (env : Env) (err : Option GoError) (tag msg : String)
    (fields : Option Fields) (s : State) (lg : logrus.Logger) (hlg : s.app.Logger = some lg) :
    ∃ ls, (HandleErrorWithFields env err tag msg fields s).1.written = s.written ++ ls ∧
      (∀ l ∈ ls, l.Out = lg.Out) ∧
      (HandleErrorWithFields env err tag msg fields s).1.app = s.app := by
  cases err with
  | none => exact ⟨[], by simp [HandleErrorWithFields]⟩
  | some e =>
    cases hsev : severityOf tag with
    | none =>
      obtain ⟨hw, he, hf⟩ := severityOf_eq_none tag hsev
      rw [HandleErrorWithFields_unrecognised env e tag msg fields s hw he hf]
      exact ⟨[], by simp⟩
    | some lvl =>
      rw [HandleErrorWithFields_recognised env e tag lvl msg fields s lg hlg hsev]
      refine ⟨_, rfl, ?_, rfl⟩
      intro l hl
      by_cases hen : lg.IsLevelEnabled lvl
      · simp only [logrus.Logger.Log, hen, if_true, List.mem_singleton] at hl
        rw [hl]
      · simp [logrus.Logger.Log, hen] at hl

/-- `ConfigureWorkers` appends what the logger yields for its debug line and leaves
the logger as it was. -/
theorem ConfigureWorkers_out (count : Int) (s : State) (lg : logrus.Logger)
    (hlg : s.app.Logger = some lg) :
    ∃ ls, (ConfigureWorkers count s).written = s.written ++ ls ∧
      (∀ l ∈ ls, l.Out = lg.Out) ∧ (ConfigureWorkers count s).app.Logger = some lg := by
  refine ⟨lg.Log .DebugLevel [("count", .int count)] "Configuring workers in pool", ?_, ?_, ?_⟩
  · unfold ConfigureWorkers
    by_cases hr : s.status = .running <;> simp [State.log, hlg, hr]
  · intro l hl
    by_cases hen : lg.IsLevelEnabled .DebugLevel
    · simp only [logrus.Logger.Log, hen, if_true, List.mem_singleton] at hl
      rw [hl]
    · simp [logrus.Logger.Log, hen] at hl
  · unfold ConfigureWorkers
    by_cases hr : s.status = .running <;> simp [State.log, hlg, hr]

/-- Any one call only appends lines, all of them on the output of the logger, and
leaves the logger as it was. -/
theorem Call.run_out (env : Env) (c : Call) (s : State) (lg : logrus.Logger)
    (hlg : s.app.Logger = some lg) :
    ∃ ls, (c.run env s).written = s.written ++ ls ∧ (∀ l ∈ ls, l.Out = lg.Out) ∧
      (c.run env s).app.Logger = some lg := by
  cases c with
  | reportWithFields err errorType msg fields =>
    obtain ⟨ls, hw, hout, happ⟩ := HandleErrorWithFields_out env err errorType msg fields s lg hlg
    exact ⟨ls, hw, hout, by simp only [Call.run]; rw [happ]; exact hlg⟩
  | report err errorType msg =>
    obtain ⟨ls, hw, hout, happ⟩ := HandleErrorWithFields_out env err errorType
      (msg.headD env.DefaultErrorMessage) none s lg hlg
    simp only [Call.run, HandleError_eq]
    exact ⟨ls, hw, hout, by rw [happ]; exact hlg⟩
  | workers count => exact ConfigureWorkers_out count s lg hlg

/-- A run of calls only appends lines, all of them on the output of the logger. -/
theorem runAll_out (env : Env) (calls : List Call) (s : State) (lg : logrus.Logger)
    (hlg : s.app.Logger = some lg) :
    ∃ ls, (runAll env calls s).written = s.written ++ ls ∧ ∀ l ∈ ls, l.Out = lg.Out := by
  induction calls generalizing s with
  | nil => exact ⟨[], by simp [runAll]⟩
  | cons c rest ih =>
    obtain ⟨ls, hw, hout, happ⟩ := Call.run_out env c s lg hlg
    unfold runAll
    by_cases hrun : (c.run env s).status = .running
    · simp only [hrun, if_true]
      obtain ⟨ls2, hw2, hout2⟩ := ih _ happ
      refine ⟨ls ++ ls2, by rw [hw2, hw, List.append_assoc], ?_⟩
      intro l hl
      rcases List.mem_append.mp hl with h1 | h2
      · exact hout l h1
      · exact hout2 l h2
    · simp only [hrun, if_false]
      exact ⟨ls, hw, hout⟩

/-! ## Results -/

/-- C1: with a nil cause, `HandleErrorWithFields` is a no-op for every tag, message
and fields mapping: the state after the call (logger, lines written, process status)
is the state before, no line is emitted, and the supplied mapping is as it was; the
same holds for `HandleError` with a nil cause and any list of messages. -/
theorem nil_cause_is_noop (env : Env) (errorType msg : String) (fields : Option Fields)
    (msgs : List String) (s : State) :
    HandleErrorWithFields env none errorType msg fields s = (s, fields) ∧
    emitted s (HandleErrorWithFields env none errorType msg fields s).1 = [] ∧
    HandleError env none errorType msgs s = s ∧
    emitted s (HandleError env none errorType msgs s) = [] := by
  have h1 : HandleErrorWithFields env none errorType msg fields s = (s, fields) := by
    simp [HandleErrorWithFields]
  have h2 : HandleError env none errorType msgs s = s := by
    cases msgs <;> simp [HandleError, HandleErrorWithFields]
  refine ⟨h1, ?_, h2, ?_⟩
  · rw [h1]; exact emitted_self s
  · rw [h2]; exact emitted_self s

/-- C2, as stated, fails: on a logger configured at the level `"panic"` a `"fatal"`
report with a non-nil cause is not written at all (no line is emitted), though the
process exits. -/
theorem fatal_report_below_level_is_not_written :
    emitted (ConfigureLogging envAllFiles ⟨"panic", "json", false, ""⟩ start)
      (HandleErrorWithFields envAllFiles (some (.errorString "boom")) "fatal" "stop" none
        (ConfigureLogging envAllFiles ⟨"panic", "json", false, ""⟩ start)).1 = [] ∧
    (HandleErrorWithFields envAllFiles (some (.errorString "boom")) "fatal" "stop" none
        (ConfigureLogging envAllFiles ⟨"panic", "json", false, ""⟩ start)).1.status
      = .exited 1 := by
  decide

/-- C2, amended: for a non-nil cause and a tag of severity `lvl` (`"warn"`, `"error"`,
`"fatal"`), on a state whose logger is set, `HandleErrorWithFields` hands the report to
the logger at `lvl`: exactly one line, of level `lvl`, is written to the logger's
output when the logger's level admits `lvl`, and none otherwise; after the write the
process has exited with status 1 if the tag is `"fatal"`, and its status is unchanged
(the call returns) if the tag is `"error"` or `"warn"`; the logger is unchanged. -/
theorem report_severity_and_termination (env : Env) (e : GoError) (tag : String)
    (lvl : logrus.Level) (msg : String) (fields : Option Fields) (s : State)
    (lg : logrus.Logger) (hlg : s.app.Logger = some lg) (hsev : severityOf tag = some lvl) :
    (emitted s (HandleErrorWithFields env (some e) tag msg fields s).1).map
        (fun l => (l.Out, l.Level)) = (if lg.IsLevelEnabled lvl then [(lg.Out, lvl)] else []) ∧
    (HandleErrorWithFields env (some e) tag msg fields s).1.status
      = (if tag = "fatal" then .exited 1 else s.status) ∧
    (HandleErrorWithFields env (some e) tag msg fields s).1.app = s.app := by
  rw [HandleErrorWithFields_recognised env e tag lvl msg fields s lg hlg hsev]
  refine ⟨?_, rfl, rfl⟩
  rw [emitted_append s _ _ rfl]
  by_cases hen : lg.IsLevelEnabled lvl <;> simp [logrus.Logger.Log, hen]

/-- Witness of C2 (amended): a `"fatal"` report on a logger configured at `"info"`. -/
theorem report_severity_and_termination_witness :
    (ConfigureLogging envAllFiles ⟨"info", "json", false, ""⟩ start).app.Logger
      = some ⟨.Stdout, .JSONFormatter "2006-01-02 15:04:05", false, .InfoLevel⟩ ∧
    severityOf "fatal" = some .FatalLevel ∧
    ((emitted (ConfigureLogging envAllFiles ⟨"info", "json", false, ""⟩ start)
        (HandleErrorWithFields envAllFiles (some (.errorString "boom")) "fatal" "stop" none
          (ConfigureLogging envAllFiles ⟨"info", "json", false, ""⟩ start)).1).map
        (fun l => (l.Out, l.Level))
      = (if (logrus.Logger.mk .Stdout (.JSONFormatter "2006-01-02 15:04:05") false
            .InfoLevel).IsLevelEnabled .FatalLevel
          then [(logrus.Output.Stdout, logrus.Level.FatalLevel)] else []) ∧
    (HandleErrorWithFields envAllFiles (some (.errorString "boom")) "fatal" "stop" none
        (ConfigureLogging envAllFiles ⟨"info", "json", false, ""⟩ start)).1.status
      = (if "fatal" = "fatal" then .exited 1
          else (ConfigureLogging envAllFiles ⟨"info", "json", false, ""⟩ start).status) ∧
    (HandleErrorWithFields envAllFiles (some (.errorString "boom")) "fatal" "stop" none
        (ConfigureLogging envAllFiles ⟨"info", "json", false, ""⟩ start)).1.app
      = (ConfigureLogging envAllFiles ⟨"info", "json", false, ""⟩ start).app) :=
  ⟨rfl, rfl, report_severity_and_termination envAllFiles (.errorString "boom") "fatal"
    .FatalLevel "stop" none (ConfigureLogging envAllFiles ⟨"info", "json", false, ""⟩ start)
    ⟨.Stdout, .JSONFormatter "2006-01-02 15:04:05", false, .InfoLevel⟩ rfl rfl⟩

/-- C3, as stated, fails: on a logger configured at the level `"error"` a `"warn"`
report with a non-nil cause produces no line. -/
theorem warn_report_below_level_produces_no_line :
    emitted (ConfigureLogging envAllFiles ⟨"error", "text", false, ""⟩ start)
      (HandleErrorWithFields envAllFiles (some (.errorString "boom")) "warn" "careful"
        (some [("step", .str "build")])
        (ConfigureLogging envAllFiles ⟨"error", "text", false, ""⟩ start)).1 = [] := by
  decide

/-- C3, amended: for a non-nil cause, any message and any fields mapping (a nil mapping
counting as empty), on a state whose logger is set and whose level admits the severity
of the tag, the report produces exactly one line; for the tag `"warn"` the fields of
the line are exactly the supplied mapping, and for `"error"` and `"fatal"` they are the
supplied mapping with the key `"error"` bound to the cause and every other key bound
as supplied. -/
theorem report_fields (env : Env) (e : GoError) (tag : String) (lvl : logrus.Level)
    (msg : String) (fields : Option Fields) (s : State) (lg : logrus.Logger)
    (hlg : s.app.Logger = some lg) (hsev : severityOf tag = some lvl)
    (hen : lg.IsLevelEnabled lvl = true) :
    ∃ line, emitted s (HandleErrorWithFields env (some e) tag msg fields s).1 = [line] ∧
      (tag = "warn" → line.Data = fields.getD []) ∧
      (tag ≠ "warn" → Fields.index line.Data "error" = some (.err e) ∧
        ∀ k, k ≠ "error" → Fields.index line.Data k = Fields.index (fields.getD []) k) := by
  rw [HandleErrorWithFields_recognised env e tag lvl msg fields s lg hlg hsev]
  rw [emitted_append s _ _ rfl]
  simp only [logrus.Logger.Log, hen, if_true]
  refine ⟨_, rfl, ?_, ?_⟩
  · intro ht
    simp [ht]
  · intro ht
    simp only [ht, if_false]
    exact ⟨Fields.index_assign_same _ _ _, fun k hk => Fields.index_assign_other _ _ _ _ hk⟩

/-- Witness of C3 (amended): an `"error"` report with one supplied field on a logger
configured at `"debug"`. -/
theorem report_fields_witness :
    (ConfigureLogging envAllFiles ⟨"debug", "json", false, ""⟩ start).app.Logger
      = some ⟨.Stdout, .JSONFormatter "2006-01-02 15:04:05", false, .DebugLevel⟩ ∧
    severityOf "error" = some .ErrorLevel ∧
    (logrus.Logger.mk .Stdout (.JSONFormatter "2006-01-02 15:04:05") false
      .DebugLevel).IsLevelEnabled .ErrorLevel = true ∧
    ∃ line, emitted (ConfigureLogging envAllFiles ⟨"debug", "json", false, ""⟩ start)
        (HandleErrorWithFields envAllFiles (some (.errorString "boom")) "error" "failed"
          (some [("step", .str "build")])
          (ConfigureLogging envAllFiles ⟨"debug", "json", false, ""⟩ start)).1 = [line] ∧
      ("error" = "warn" → line.Data = (some [("step", Value.str "build")]).getD []) ∧
      ("error" ≠ "warn" → Fields.index line.Data "error" = some (.err (.errorString "boom")) ∧
        ∀ k, k ≠ "error" → Fields.index line.Data k
          = Fields.index ((some [("step", Value.str "build")]).getD []) k) :=
  ⟨rfl, rfl, rfl, report_fields envAllFiles (.errorString "boom") "error" .ErrorLevel "failed"
    (some [("step", .str "build")])
    (ConfigureLogging envAllFiles ⟨"debug", "json", false, ""⟩ start)
    ⟨.Stdout, .JSONFormatter "2006-01-02 15:04:05", false, .DebugLevel⟩ rfl rfl rfl⟩

/-- C4: for a non-nil cause and a tag that is none of `"warn"`, `"error"`, `"fatal"`,
`HandleErrorWithFields` and `HandleError` emit no line and do not terminate the
process: the state after the call is the state before, and the supplied mapping is as
it was. -/
theorem unknown_tag_is_dropped (env : Env) (e : GoError) (errorType msg : String)
    (fields : Option Fields) (msgs : List String) (s : State)
    (hw : errorType ≠ "warn") (he : errorType ≠ "error") (hf : errorType ≠ "fatal") :
    HandleErrorWithFields env (some e) errorType msg fields s = (s, fields) ∧
    emitted s (HandleErrorWithFields env (some e) errorType msg fields s).1 = [] ∧
    HandleError env (some e) errorType msgs s = s ∧
    emitted s (HandleError env (some e) errorType msgs s) = [] := by
  have h1 : ∀ (m : String) (f : Option Fields),
      HandleErrorWithFields env (some e) errorType m f s = (s, f) := by
    intro m f
    cases f <;> simp [HandleErrorWithFields, hw, he, hf]
  have h2 : HandleError env (some e) errorType msgs s = s := by
    cases msgs <;> simp [HandleError, h1]
  refine ⟨h1 msg fields, ?_, h2, ?_⟩
  · rw [h1]; exact emitted_self s
  · rw [h2]; exact emitted_self s

/-- Witness of C4 at the tag `"Warn"` (capitalised) on a process whose logger is
configured at the debug level. -/
theorem unknown_tag_is_dropped_witness :
    HandleErrorWithFields envNoFiles (some (.errorString "boom")) "Warn" "m"
        (some [("k", .str "v")]) (ConfigureLogging envNoFiles ⟨"debug", "json", false, ""⟩ start)
      = (ConfigureLogging envNoFiles ⟨"debug", "json", false, ""⟩ start, some [("k", .str "v")]) ∧
    emitted (ConfigureLogging envNoFiles ⟨"debug", "json", false, ""⟩ start)
      (HandleErrorWithFields envNoFiles (some (.errorString "boom")) "Warn" "m"
        (some [("k", .str "v")])
        (ConfigureLogging envNoFiles ⟨"debug", "json", false, ""⟩ start)).1 = [] ∧
    HandleError envNoFiles (some (.errorString "boom")) "Warn" ["m"]
        (ConfigureLogging envNoFiles ⟨"debug", "json", false, ""⟩ start)
      = ConfigureLogging envNoFiles ⟨"debug", "json", false, ""⟩ start ∧
    emitted (ConfigureLogging envNoFiles ⟨"debug", "json", false, ""⟩ start)
      (HandleError envNoFiles (some (.errorString "boom")) "Warn" ["m"]
        (ConfigureLogging envNoFiles ⟨"debug", "json", false, ""⟩ start)) = [] :=
  unknown_tag_is_dropped envNoFiles (.errorString "boom") "Warn" "m" (some [("k", .str "v")])
    ["m"] (ConfigureLogging envNoFiles ⟨"debug", "json", false, ""⟩ start)
    (by decide) (by decide) (by decide)

/-- C5: for a non-nil cause and a recognised tag, every line the report emits carries
the supplied message when that is non-empty and `DefaultErrorMessage` when it is
empty (`HandleErrorWithFields`); for `HandleError` the message is `DefaultErrorMessage`
when no message is given or the first one is empty, and otherwise the first message
as it stands, whatever further messages follow. On a logger whose level admits the
severity of the tag the report is exactly one line. -/
theorem report_message (env : Env) (e : GoError) (tag : String) (lvl : logrus.Level)
    (msg : String) (fields : Option Fields) (msgs : List String) (s : State)
    (hsev : severityOf tag = some lvl) :
    (∀ line ∈ emitted s (HandleErrorWithFields env (some e) tag msg fields s).1,
      line.Message = (if msg = "" then env.DefaultErrorMessage else msg)) ∧
    (∀ line ∈ emitted s (HandleError env (some e) tag msgs s),
      line.Message = (match msgs with
        | [] => env.DefaultErrorMessage
        | m :: _ => if m = "" then env.DefaultErrorMessage else m)) ∧
    (∀ lg, s.app.Logger = some lg → lg.IsLevelEnabled lvl = true →
      (emitted s (HandleErrorWithFields env (some e) tag msg fields s).1).length = 1 ∧
      (emitted s (HandleError env (some e) tag msgs s)).length = 1) := by
  refine ⟨HandleErrorWithFields_message env e tag lvl msg fields s hsev, ?_, ?_⟩
  · rw [HandleError_eq]
    intro line hline
    have h := HandleErrorWithFields_message env e tag lvl _ none s hsev line hline
    cases msgs with
    | nil => simpa using h
    | cons m rest => simpa using h
  · intro lg hlg hen
    refine ⟨HandleErrorWithFields_one_line env e tag lvl msg fields s lg hlg hsev hen, ?_⟩
    rw [HandleError_eq]
    exact HandleErrorWithFields_one_line env e tag lvl _ none s lg hlg hsev hen

/-- Witness of C5: a `"warn"` report with an empty message, and `HandleError` with two
messages, on a logger configured at `"trace"`. -/
theorem report_message_witness :
    severityOf "warn" = some .WarnLevel ∧
    ((∀ line ∈ emitted (ConfigureLogging envAllFiles ⟨"trace", "json", false, ""⟩ start)
        (HandleErrorWithFields envAllFiles (some (.errorString "boom")) "warn" "" none
          (ConfigureLogging envAllFiles ⟨"trace", "json", false, ""⟩ start)).1,
      line.Message = (if "" = "" then envAllFiles.DefaultErrorMessage else "")) ∧
    (∀ line ∈ emitted (ConfigureLogging envAllFiles ⟨"trace", "json", false, ""⟩ start)
        (HandleError envAllFiles (some (.errorString "boom")) "warn" ["first", "second"]
          (ConfigureLogging envAllFiles ⟨"trace", "json", false, ""⟩ start)),
      line.Message = (match ["first", "second"] with
        | [] => envAllFiles.DefaultErrorMessage
        | m :: _ => if m = "" then envAllFiles.DefaultErrorMessage else m)) ∧
    (∀ lg, (ConfigureLogging envAllFiles ⟨"trace", "json", false, ""⟩ start).app.Logger
        = some lg → lg.IsLevelEnabled .WarnLevel = true →
      (emitted (ConfigureLogging envAllFiles ⟨"trace", "json", false, ""⟩ start)
        (HandleErrorWithFields envAllFiles (some (.errorString "boom")) "warn" "" none
          (ConfigureLogging envAllFiles ⟨"trace", "json", false, ""⟩ start)).1).length = 1 ∧
      (emitted (ConfigureLogging envAllFiles ⟨"trace", "json", false, ""⟩ start)
        (HandleError envAllFiles (some (.errorString "boom")) "warn" ["first", "second"]
          (ConfigureLogging envAllFiles ⟨"trace", "json", false, ""⟩ start))).length = 1)) :=
  ⟨rfl, report_message envAllFiles (.errorString "boom") "warn" .WarnLevel "" none
    ["first", "second"] (ConfigureLogging envAllFiles ⟨"trace", "json", false, ""⟩ start) rfl⟩

/-- C6, as stated, fails: after `ConfigureLogging` with the level string `"banana"` the
logger is the one `logrus.New` made, its level the info level (neither debug nor
trace), and the process has exited. -/
theorem invalid_level_leaves_info_level :
    (ConfigureLogging envAllFiles ⟨"banana", "text", false, ""⟩ start).app.Logger
      = some ⟨.Stdout, .TextFormatter false false "", false, .InfoLevel⟩ ∧
    (ConfigureLogging envAllFiles ⟨"banana", "text", false, ""⟩ start).status = .exited 1 := by
  decide

/-- C6, amended: for every level string that `ParseLevel` rejects, `ConfigureLogging`
emits exactly one line, a fatal report on standard output with the message
`Unable to set logging level` whose only field is `error`, bound to the parse error,
and the process exits with status 1 at that report. -/
theorem invalid_level_is_fatal (env : Env) (logging : Log) (s : State) (err : GoError)
    (h : logrus.ParseLevel logging.Level = .error err) :
    emitted s (ConfigureLogging env logging s) =
      [{ Out := .Stdout, Formatter := .TextFormatter false false "", ReportCaller := false,
         Level := .FatalLevel, Message := "Unable to set logging level",
         Data := [("error", .err err)] }] ∧
    (ConfigureLogging env logging s).status = .exited 1 := by
  unfold ConfigureLogging
  simp only [h]
  rw [HandleError_eq]
  rw [HandleErrorWithFields_recognised env err "fatal" .FatalLevel _ none _
    { logrus.New with Out := .Stdout } rfl rfl]
  simp [emitted, logrus.Logger.Log, logrus.Logger.IsLevelEnabled, logrus.New,
    logrus.Level.val, Fields.assign, Fields.erase]

/-- Witness of C6 (amended) at the level string `"verbose"`. -/
theorem invalid_level_is_fatal_witness :
    logrus.ParseLevel (Log.mk "verbose" "json" false "/tmp/log").Level
      = .error (.notValidLevel "verbose") ∧
    (emitted start (ConfigureLogging envAllFiles ⟨"verbose", "json", false, "/tmp/log"⟩ start) =
      [{ Out := .Stdout, Formatter := .TextFormatter false false "", ReportCaller := false,
         Level := .FatalLevel, Message := "Unable to set logging level",
         Data := [("error", .err (.notValidLevel "verbose"))] }] ∧
    (ConfigureLogging envAllFiles ⟨"verbose", "json", false, "/tmp/log"⟩ start).status
      = .exited 1) :=
  ⟨rfl, invalid_level_is_fatal envAllFiles ⟨"verbose", "json", false, "/tmp/log"⟩ start
    (.notValidLevel "verbose") rfl⟩

/-- C7, as stated, fails: with the level `"error"` and a log file that cannot be
opened, `ConfigureLogging` writes no warning line at all. -/
theorem unopenable_file_at_error_level_gives_no_warning :
    emitted start
      (ConfigureLogging envNoFiles ⟨"error", "text", false, "/var/log/mrbuild.log"⟩ start) = [] ∧
    consoleLines
      (ConfigureLogging envNoFiles ⟨"error", "text", false, "/var/log/mrbuild.log"⟩ start) = [] := by
  decide

/-- C7, amended: for a level string that `ParseLevel` accepts, a non-empty file path
and any format: if the file opens, `ConfigureLogging` writes nothing, leaves the file
as the logger's output, and no run of later calls of the methods of `App` that log
(`HandleErrorWithFields`, `HandleError`, `ConfigureWorkers`) adds a line to the console; if the
file does not open, the lines written during configuration are exactly one warning,
`Failed to log to file, defaulting to screen: ` followed by the error, when the configured
level admits warnings (warn, info, debug, trace) and none when it does not (panic,
fatal, error), the logger's output stays a console, and every line written from the
start of the configuration through any run of such later calls is on the console. -/
theorem log_file_outcome (env : Env) (logging : Log) (s : State) (ll : logrus.Level)
    (hp : logrus.ParseLevel logging.Level = .ok ll) (hf : logging.File ≠ "") :
    (env.OpenFile logging.File = .ok () →
      emitted s (ConfigureLogging env logging s) = [] ∧
      (∃ lg, (ConfigureLogging env logging s).app.Logger = some lg ∧
        lg.Out = .File logging.File) ∧
      ∀ calls, consoleLines (runAll env calls (ConfigureLogging env logging s))
        = consoleLines s) ∧
    (∀ perr, env.OpenFile logging.File = .error perr →
      (emitted s (ConfigureLogging env logging s)).map (fun l => (l.Level, l.Message))
        = (if logrus.Level.WarnLevel.val ≤ ll.val then
            [(.WarnLevel, "Failed to log to file, defaulting to screen: " ++ perr.Error)]
          else []) ∧
      (∀ l ∈ emitted s (ConfigureLogging env logging s), l.Out.isConsole = true) ∧
      (∃ lg, (ConfigureLogging env logging s).app.Logger = some lg ∧
        lg.Out.isConsole = true) ∧
      ∀ calls, ∀ l ∈ emitted s (runAll env calls (ConfigureLogging env logging s)),
        l.Out.isConsole = true) := by
  have hc : ConfigureLogging env logging s = configureLogger env logging ll
      { s with app := { s.app with Logger := some { logrus.New with Out := .Stdout } } } := by
    unfold ConfigureLogging
    simp only [hp]
  rw [hc]
  constructor
  · intro ho
    obtain ⟨hw, lg2, hlg2, hout⟩ := configureLogger_file_ok env logging ll
      { s with app := { s.app with Logger := some { logrus.New with Out := .Stdout } } }
      { logrus.New with Out := .Stdout } rfl hf () ho
    refine ⟨emitted_append s _ [] (by simpa using hw), ⟨lg2, hlg2, hout⟩, ?_⟩
    intro calls
    obtain ⟨ls, hls, hall⟩ := runAll_out env calls _ lg2 hlg2
    have hnone : ls.filter (fun l => l.Out.isConsole) = [] := by
      rw [List.filter_eq_nil_iff]
      intro l hl
      rw [hall l hl, hout]
      simp [logrus.Output.isConsole]
    simp only [consoleLines, hls, hw, List.filter_append, hnone, List.append_nil]
  · intro perr ho
    obtain ⟨lg2, hlg2, hcons, hlvl, hw⟩ := configureLogger_file_error env logging ll
      { s with app := { s.app with Logger := some { logrus.New with Out := .Stdout } } }
      { logrus.New with Out := .Stdout } rfl rfl hf perr ho
    have hem := emitted_append s _ _ hw
    have hlines : ∀ l ∈ lg2.Log .WarnLevel []
        ("Failed to log to file, defaulting to screen: " ++ perr.Error),
        l.Out.isConsole = true := by
      intro l hl
      by_cases hen : lg2.IsLevelEnabled .WarnLevel
      · simp only [logrus.Logger.Log, hen, if_true, List.mem_singleton] at hl
        rw [hl]; exact hcons
      · simp [logrus.Logger.Log, hen] at hl
    refine ⟨?_, ?_, ⟨lg2, hlg2, hcons⟩, ?_⟩
    · rw [hem]
      by_cases hen : logrus.Level.WarnLevel.val ≤ ll.val <;>
        simp [logrus.Logger.Log, logrus.Logger.IsLevelEnabled, hlvl, hen]
    · rw [hem]; exact hlines
    · intro calls l hl
      obtain ⟨ls, hls, hall⟩ := runAll_out env calls _ lg2 hlg2
      rw [emitted_append s _ _ (by rw [hls, hw, List.append_assoc])] at hl
      rcases List.mem_append.mp hl with h1 | h2
      · exact hlines l h1
      · rw [hall l h2]; exact hcons

/-- Witness of C7 (amended) at the level `"warn"` and the path `/var/log/mrbuild.log`:
once on a file system where the file opens, once where it does not. -/
theorem log_file_outcome_witness :
    logrus.ParseLevel (Log.mk "warn" "json" false "/var/log/mrbuild.log").Level
      = .ok .WarnLevel ∧
    (Log.mk "warn" "json" false "/var/log/mrbuild.log").File ≠ "" ∧
    (emitted start
        (ConfigureLogging envAllFiles ⟨"warn", "json", false, "/var/log/mrbuild.log"⟩ start) = [] ∧
      (∃ lg, (ConfigureLogging envAllFiles ⟨"warn", "json", false, "/var/log/mrbuild.log"⟩
          start).app.Logger = some lg ∧ lg.Out = .File "/var/log/mrbuild.log") ∧
      ∀ calls, consoleLines (runAll envAllFiles calls
          (ConfigureLogging envAllFiles ⟨"warn", "json", false, "/var/log/mrbuild.log"⟩ start))
        = consoleLines start) ∧
    ((emitted start
        (ConfigureLogging envNoFiles ⟨"warn", "json", false, "/var/log/mrbuild.log"⟩ start)).map
        (fun l => (l.Level, l.Message))
        = (if logrus.Level.WarnLevel.val ≤ logrus.Level.WarnLevel.val then
            [(.WarnLevel, "Failed to log to file, defaulting to screen: " ++
              (PathError.mk "open" "/var/log/mrbuild.log" "permission denied").Error)]
          else []) ∧
      (∀ l ∈ emitted start
          (ConfigureLogging envNoFiles ⟨"warn", "json", false, "/var/log/mrbuild.log"⟩ start),
        l.Out.isConsole = true) ∧
      (∃ lg, (ConfigureLogging envNoFiles ⟨"warn", "json", false, "/var/log/mrbuild.log"⟩
          start).app.Logger = some lg ∧ lg.Out.isConsole = true) ∧
      ∀ calls, ∀ l ∈ emitted start (runAll envNoFiles calls
          (ConfigureLogging envNoFiles ⟨"warn", "json", false, "/var/log/mrbuild.log"⟩ start)),
        l.Out.isConsole = true) :=
  ⟨rfl, by decide,
    (log_file_outcome envAllFiles ⟨"warn", "json", false, "/var/log/mrbuild.log"⟩ start
      .WarnLevel rfl (by decide)).1 rfl,
    (log_file_outcome envNoFiles ⟨"warn", "json", false, "/var/log/mrbuild.log"⟩ start
      .WarnLevel rfl (by decide)).2 ⟨"open", "/var/log/mrbuild.log", "permission denied"⟩ rfl⟩

/-- C8: for every level string that `ParseLevel` accepts, `ConfigureLogging` leaves a
logger whose level is the parsed value, whatever the format, colour and file settings,
the file system and the state (the logger included) the call started from; the call
does not change the process status. -/
theorem ConfigureLogging_sets_parsed_level (env : Env) (logging : Log) (s : State)
    (ll : logrus.Level) (h : logrus.ParseLevel logging.Level = .ok ll) :
    (∃ lg, (ConfigureLogging env logging s).app.Logger = some lg ∧ lg.Level = ll) ∧
    (ConfigureLogging env logging s).status = s.status := by
  unfold ConfigureLogging
  simp only [h]
  obtain ⟨lg2, h1, h2, -, h4⟩ := configureLogger_logger env logging ll
    { s with app := { s.app with Logger := some { logrus.New with Out := .Stdout } } }
    { logrus.New with Out := .Stdout } rfl
  exact ⟨⟨lg2, h1, h2⟩, h4⟩

/-- Witness of C8 at the level string `"Warning"`, with a log file that cannot be
opened. -/
theorem ConfigureLogging_sets_parsed_level_witness :
    logrus.ParseLevel (Log.mk "Warning" "text" true "/var/log/x").Level = .ok .WarnLevel ∧
    ((∃ lg, (ConfigureLogging envNoFiles ⟨"Warning", "text", true, "/var/log/x"⟩ start).app.Logger
        = some lg ∧ lg.Level = .WarnLevel) ∧
      (ConfigureLogging envNoFiles ⟨"Warning", "text", true, "/var/log/x"⟩ start).status
        = start.status) :=
  ⟨rfl, ConfigureLogging_sets_parsed_level envNoFiles ⟨"Warning", "text", true, "/var/log/x"⟩
    start .WarnLevel rfl⟩

/-- C9: at the configured level `"debug"`, whatever the other settings, the logger
that `ConfigureLogging` leaves has caller reporting off (`ReportCaller = false`), and
its level is the debug level: the caller is added only at the trace level. -/
theorem ConfigureLogging_debug_reports_no_caller (env : Env) (format : String) (colour : Bool)
    (file : String) (s : State) :
    ∃ lg, (ConfigureLogging env ⟨"debug", format, colour, file⟩ s).app.Logger = some lg ∧
      lg.Level = .DebugLevel ∧ lg.ReportCaller = false := by
  have hp : logrus.ParseLevel (Log.mk "debug" format colour file).Level = .ok .DebugLevel := rfl
  unfold ConfigureLogging
  simp only [hp]
  obtain ⟨lg2, h1, h2, h3, -⟩ := configureLogger_logger env ⟨"debug", format, colour, file⟩
    .DebugLevel
    { s with app := { s.app with Logger := some { logrus.New with Out := .Stdout } } }
    { logrus.New with Out := .Stdout } rfl
  exact ⟨lg2, h1, h2, by simpa [logrus.New] using h3⟩

end Mrbuild
